import Mathlib

/-
  Verification of pajbot's per-user data-access layer
  (src/pajbot/models/user.py).

  The Python module is shallowly embedded below: Python ints become `Int`
  (or `Nat` for configuration counts and lengths that the code only ever
  treats as nonnegative), Redis hashes become association lists
  `List (String × v)`, and stateful methods become explicit
  state-passing functions.  Each definition mirrors the source function
  of the same name.
-/

namespace Pajbot

/-- Mutable per-user point/debt state used by `UserCombined`:
`points` comes from the SQL model, `debts` is the in-memory list on the
façade object. -/
structure UserState where
  points : Int
  debts : List Int
  deriving Repr, DecidableEq

/-- Embedding of `UserCombined.spend_points`: deduct iff the amount is at
most the current balance, returning whether the spend succeeded. -/
def spend_points (points_to_spend : Int) (u : UserState) : Bool × UserState :=
  if points_to_spend ≤ u.points then
    (true, { u with points := u.points - points_to_spend })
  else
    (false, u)

/-- Embedding of `UserCombined.create_debt`: append to the debt list. -/
def create_debt (points : Int) (u : UserState) : UserState :=
  { u with debts := u.debts ++ [points] }

/-- Embedding of `UserCombined.remove_debt`: `list.remove` deletes the
first matching entry; a `ValueError` (entry absent) is logged and
swallowed.  The returned flag records whether the error branch
(`log.error`) was taken. -/
def remove_debt (debt : Int) (u : UserState) : UserState × Bool :=
  if u.debts.contains debt then
    ({ u with debts := u.debts.erase debt }, false)
  else
    (u, true)

/-- Embedding of `UserCombined.pay_debt`: unconditionally deduct the
amount, then remove one matching debt entry. -/
def pay_debt (debt : Int) (u : UserState) : UserState × Bool :=
  remove_debt debt { u with points := u.points - debt }

/-- Embedding of `UserCombined.points_in_debt`. -/
def points_in_debt (u : UserState) : Int :=
  u.debts.sum

/-- Embedding of `UserCombined.points_available`. -/
def points_available (u : UserState) : Int :=
  u.points - points_in_debt u

/-- Embedding of `UserCombined.can_afford`. -/
def can_afford (points_to_spend : Int) (u : UserState) : Bool :=
  points_available u ≥ points_to_spend

/-- A sequence of `create_debt` calls, applied left to right. -/
def apply_debts (u : UserState) : List Int → UserState
  | [] => u
  | d :: ds => apply_debts (create_debt d u) ds

/-- Outcome of the caller-supplied action wrapped by
`spend_currency_context`: it completes, raises the recognized
`FailedCommand`, or raises some other exception. -/
inductive ActionResult where
  | ok
  | failedCommand
  | otherError
  deriving Repr, DecidableEq

/-- Embedding of `UserCombined.spend_currency_context` (a
`@contextmanager`).  `spend_points` runs inside the `try`, then the body
(`yield`) produces `outcome`.  Both `except FailedCommand` and the bare
`except` refund the points and fall off the end of the generator, so the
context manager machinery suppresses the exception: the second component
is the exception that propagates to the caller, if any.  The
`tokens_to_spend` parameter is accepted but never used, as in the
source. -/
def spend_currency_context (points_to_spend : Int) (tokens_to_spend : Int)
    (outcome : ActionResult) (u : UserState) : UserState × Option ActionResult :=
  let _ := tokens_to_spend
  let u1 := (spend_points points_to_spend u).2
  match outcome with
  | ActionResult.ok => (u1, none)
  | ActionResult.failedCommand =>
      ({ u1 with points := u1.points + points_to_spend }, none)
  | ActionResult.otherError =>
      ({ u1 with points := u1.points + points_to_spend }, none)

/-- Lookup of a field in a Redis-style hash, modelled as an association
list (first entry wins; Redis hashes have unique fields). -/
def alGet {v : Type} : List (String × v) → String → Option v
  | [], _ => none
  | (k2, x) :: rest, k => if k2 == k then some x else alGet rest k

/-- Redis `hset`: overwrite the field if present, else append it. -/
def alSet {v : Type} : List (String × v) → String → v → List (String × v)
  | [], k, x => [(k, x)]
  | (k2, y) :: rest, k, x =>
      if k2 == k then (k2, x) :: rest else (k2, y) :: alSet rest k x

/-- Redis `hdel` (also used for `setex`-key deletion): remove the field. -/
def alDel {v : Type} (h : List (String × v)) (k : String) : List (String × v) :=
  h.filter (fun p => !(p.1 == k))

/-- Redis `hsetnx`: set the field only if absent, reporting 1 on a fresh
set and 0 when the field already existed. -/
def hsetnx (h : List (String × Int)) (k : String) (v : Int) :
    Nat × List (String × Int) :=
  match alGet h k with
  | some _ => (0, h)
  | none => (1, alSet h k v)

/-- Embedding of `UserCombined.spend_tokens`.  The per-user token hash
(session id → integer balance) is iterated in store order; zero entries
are skipped, each visited entry is decreased by
`min tokens_to_spend num_tokens` and written back, and the function
returns `true` as soon as the remaining amount reaches 0 (leaving later
entries untouched) and `false` when the hash is exhausted first. -/
def spend_tokens : Int → List (String × Int) → Bool × List (String × Int)
  | _, [] => (false, [])
  | tokens_to_spend, (stream_id, num_tokens) :: rest =>
      if num_tokens == 0 then
        let r := spend_tokens tokens_to_spend rest
        (r.1, (stream_id, num_tokens) :: r.2)
      else
        let decrease_by := min tokens_to_spend num_tokens
        let remaining := tokens_to_spend - decrease_by
        let num2 := num_tokens - decrease_by
        if remaining == 0 then
          (true, (stream_id, num2) :: rest)
        else
          let r := spend_tokens remaining rest
          (r.1, (stream_id, num2) :: r.2)

/-- Total of all session balances in a token hash (what
`get_tokens` computes for parseable entries). -/
def sum_tokens (h : List (String × Int)) : Int :=
  (h.map Prod.snd).sum

/-- The same token hash with every session balance set to 0. -/
def zero_tokens (h : List (String × Int)) : List (String × Int) :=
  h.map (fun p => (p.1, 0))

/-- Embedding of `UserCombined.award_tokens`.  `stream_id = none` models
`StreamHelper.get_current_stream_id()` returning `False` (no active
broadcast).  The third component collects the amounts for which the
`on_user_gain_tokens` handler was triggered. -/
def award_tokens (tokens : Int) (force : Bool) (stream_id : Option String)
    (h : List (String × Int)) : Bool × List (String × Int) × List Int :=
  match stream_id with
  | none => (false, h, [])
  | some sid =>
      if force then
        (true, alSet h sid tokens, [])
      else
        let r := hsetnx h sid tokens
        if r.1 == 1 then (true, r.2, [tokens]) else (false, r.2, [])

/-- The warning-policy settings dictionary consulted by
`UserCombined.timeout` (`total_chances`, `base_timeout`, `length`,
`redis_prefix`). -/
structure WarningSettings where
  total_chances : Nat
  base_timeout : Nat
  length : Nat
  redis_pfx : String
  deriving Repr, DecidableEq

/-- Embedding of `UserCombined.get_warning_keys`, instantiating
`WARNING_SYNTAX` for ids `0, ..., total_chances - 1`. -/
def get_warning_keys (username : String) (total_chances : Nat) (pfx : String) :
    List String :=
  (List.range total_chances).map
    (fun id => pfx ++ "_" ++ username ++ "_warning_" ++ toString id)

/-- Embedding of `UserCombined.get_warnings`: `mget` of the warning keys
against the key store (here `List (String × Nat)`, a key paired with the
expiry it was set with). -/
def get_warnings (store : List (String × Nat)) (warning_keys : List String) :
    List (Option Nat) :=
  warning_keys.map (alGet store)

/-- Embedding of `UserCombined.get_chances_used`:
`len(warnings) - warnings.count(None)`. -/
def get_chances_used (warnings : List (Option Nat)) : Nat :=
  warnings.length - warnings.countP (fun w => w.isNone)

/-- Embedding of `UserCombined.add_warning`: walk the keys in order and
`setex` the first one whose fetched value is `None`, with the given
expiry; report whether a key was set. -/
def add_warning (expiry : Nat) : List String → List (Option Nat) →
    List (String × Nat) → Bool × List (String × Nat)
  | k :: _, none :: _, store => (true, alSet store k expiry)
  | _ :: ks, some _ :: ws, store => add_warning expiry ks ws store
  | _, _, store => (false, store)

/-- The first warning key whose fetched value is `None` (the key
`add_warning` will set), if any. -/
def firstUnset : List String → List (Option Nat) → Option String
  | k :: _, none :: _ => some k
  | _ :: ks, some _ :: ws => firstUnset ks ws
  | _, _ => none

/-- Embedding of `UserCombined.timeout`.  Returns the (possibly
overridden) timeout length with its punishment string, and the warning
key store after the call. -/
def timeout (username : String) (timeout_length : Nat)
    (warning_module : Option WarningSettings) (use_warnings : Bool)
    (store : List (String × Nat)) : (Nat × String) × List (String × Nat) :=
  let punishment := "timed out for " ++ toString timeout_length ++ " seconds"
  match warning_module, use_warnings with
  | some wm, true =>
      let warning_keys := get_warning_keys username wm.total_chances wm.redis_pfx
      let warnings := get_warnings store warning_keys
      let chances_used := get_chances_used warnings
      if chances_used < wm.total_chances then
        let tl := wm.base_timeout * (chances_used + 1)
        ((tl, "timed out for " ++ toString tl ++ " seconds (warning)"),
          (add_warning wm.length warning_keys warnings store).2)
      else
        ((timeout_length, punishment), store)
  | _, _ => ((timeout_length, punishment), store)

/-- The relational `User` row (`tb_user`). -/
structure UserRec where
  id : Option Int
  username : String
  username_raw : String
  level : Int
  points : Int
  subscriber : Bool
  minutes_in_chat_online : Int
  minutes_in_chat_offline : Int
  deriving Repr, DecidableEq

/-- Python's `str.lower()` on the ASCII usernames this module handles,
written structurally over the character list so that it computes. -/
def str_lower (s : String) : String :=
  String.mk (s.data.map Char.toLower)

/-- Embedding of `User.__init__`: a fresh row with the case-folded
username, the raw display form, and the column defaults. -/
def User_mk (username : String) : UserRec :=
  { id := none
    username := str_lower username
    username_raw := username
    level := 100
    points := 0
    subscriber := false
    minutes_in_chat_online := 0
    minutes_in_chat_offline := 0 }

/-- Modelled from the spec: the equality used by the relational query
`filter_by(username=...)` lives in the external store's query engine
(its collation), which is not part of src/; per the spec, "Username
equality is case-folded". -/
def username_eq (a b : String) : Bool :=
  str_lower a == str_lower b

/-- The relational lookup `db_session.query(User).filter_by(username=username)
.one_or_none()`, over a database modelled as the list of its rows. -/
def filter_by_username (db : List UserRec) (username : String) : Option UserRec :=
  db.find? (fun u => username_eq u.username username)

/-- Embedding of `UserSQL.select_or_create`: look the username up; when
absent, construct a fresh `User` and register it for insertion
(`db_session.add`). -/
def select_or_create (db : List UserRec) (username : String) :
    UserRec × List UserRec :=
  match filter_by_username db username with
  | some u => (u, db)
  | none =>
      let u := User_mk username
      (u, db ++ [u])

/-- A `UserSQLCache` entry: the 3-field snapshot stored by
`UserSQLCache.save`. -/
structure CacheEntry where
  id : Option Int
  level : Int
  subscriber : Bool
  deriving Repr, DecidableEq

/-- The state a `UserSQL` accessor can see and mutate: its own fields
(`username`, `model_loaded`, `user_model`), the process-wide
`UserSQLCache`, and the relational store. -/
structure SqlAccessorState where
  username : String
  model_loaded : Bool
  user_model : Option UserRec
  cache : List (String × CacheEntry)
  db : List UserRec
  deriving Repr, DecidableEq

/-- `UserSQLCache.get(username, 'subscriber')`: `none` models the
`NoCacheHit` exception. -/
def cache_get_subscriber (s : SqlAccessorState) : Option Bool :=
  (alGet s.cache s.username).map (fun e => e.subscriber)

/-- Embedding of `UserSQL.sql_load`: a no-op once loaded, otherwise
query-or-create and remember the model. -/
def sql_load (s : SqlAccessorState) : SqlAccessorState :=
  if s.model_loaded then s
  else
    let r := select_or_create s.db s.username
    { s with model_loaded := true, user_model := some r.1, db := r.2 }

/-- Embedding of the `UserSQL.subscriber` setter: on a cache hit with an
equal value, return immediately; otherwise load and write the field on
the in-memory model. -/
def subscriber_set (value : Bool) (s : SqlAccessorState) : SqlAccessorState :=
  match cache_get_subscriber s with
  | some old_value =>
      if old_value == value then s
      else
        let s2 := sql_load s
        { s2 with user_model := s2.user_model.map (fun u => { u with subscriber := value }) }
  | none =>
      let s2 := sql_load s
      { s2 with user_model := s2.user_model.map (fun u => { u with subscriber := value }) }

/-- Embedding of `UserRedis.fix_bool`:
`False if value is None else True`. -/
def fix_bool (value : Option String) : Bool :=
  value.isSome

/-- Embedding of the `UserRedis.banned` setter's store effect on the
`<streamer>:users:banned` hash (field = username): `true` upserts the
sentinel 1, anything else deletes the field. -/
def banned_set (username : String) (value : Bool) (h : List (String × String)) :
    List (String × String) :=
  if value then alSet h username "1" else alDel h username

/-- Reading `banned` after a fresh `redis_load`: `hget` the field and
decode it with `fix_bool`. -/
def banned_load (username : String) (h : List (String × String)) : Bool :=
  fix_bool (alGet h username)

/-- A write issued against the `<streamer>:users:username_raw` hash. -/
inductive KVEffect where
  | hsetRaw (username : String) (value : String)
  | hdelRaw (username : String)
  deriving Repr, DecidableEq

/-- Embedding of the `UserRedis.username_raw` setter: cache the value,
then upsert the hash field when the value differs from `self.username`
and delete it when they are equal.  Returns the cached value and the
store write issued. -/
def username_raw_set (selfUsername : String) (value : String) :
    String × List KVEffect :=
  (value,
    if value ≠ selfUsername then [KVEffect.hsetRaw selfUsername value]
    else [KVEffect.hdelRaw selfUsername])

/-- The façade state right after `UserCombined.__init__`. -/
structure CombinedInitState where
  username : String
  redis_loaded : Bool
  values_username_raw : Option String
  model_loaded : Bool
  user_model : Option UserRec
  debts : List Int
  moderator : Bool
  timed_out : Bool
  timeout_end : Option Nat
  deriving Repr, DecidableEq

/-- Embedding of `UserCombined.__init__`: run the two accessor
constructors, then assign `self.username_raw = username` through the
`UserRedis` setter.  Returns the constructed state and the list of
key-value store writes the construction issued. -/
def usercombined_init (username : String) (user_model : Option UserRec) :
    CombinedInitState × List KVEffect :=
  let rawRes := username_raw_set username username
  ({ username := username
     redis_loaded := false
     values_username_raw := some rawRes.1
     model_loaded := user_model.isSome
     user_model := user_model
     debts := []
     moderator := false
     timed_out := false
     timeout_end := none }, rawRes.2)

theorem alGet_alSet_self {v : Type} (h : List (String × v)) (k : String) (x : v) :
    alGet (alSet h k x) k = some x := by
  induction h with
  | nil => simp [alSet, alGet]
  | cons p rest ih =>
    obtain ⟨k2, y⟩ := p
    by_cases hk : k2 = k
    · simp [alSet, alGet, hk]
    · simp [alSet, alGet, hk, ih]

theorem alGet_alDel_self {v : Type} (h : List (String × v)) (k : String) :
    alGet (alDel h k) k = none := by
  induction h with
  | nil => simp [alDel, alGet]
  | cons p rest ih =>
    obtain ⟨k2, y⟩ := p
    by_cases hk : k2 = k
    · simpa [alDel, List.filter_cons, hk] using ih
    · simpa [alDel, alGet, List.filter_cons, hk] using ih

theorem sum_tokens_nil : sum_tokens [] = 0 := rfl

theorem sum_tokens_cons (p : String × Int) (rest : List (String × Int)) :
    sum_tokens (p :: rest) = p.2 + sum_tokens rest := by
  simp [sum_tokens]

theorem sum_tokens_nonneg (l : List (String × Int)) (h1 : ∀ p ∈ l, 0 ≤ p.2) :
    0 ≤ sum_tokens l := by
  unfold sum_tokens
  apply List.sum_nonneg
  intro x hx
  obtain ⟨p, hp, hpx⟩ := List.mem_map.mp hx
  exact hpx ▸ h1 p hp

theorem zero_tokens_of_sum_eq_zero (l : List (String × Int))
    (h1 : ∀ p ∈ l, 0 ≤ p.2) (h0 : sum_tokens l = 0) : zero_tokens l = l := by
  induction l with
  | nil => rfl
  | cons p rest ih =>
    obtain ⟨sid, n⟩ := p
    have hn : 0 ≤ n := h1 (sid, n) (by simp)
    have hrest : ∀ q ∈ rest, 0 ≤ q.2 := fun q hq => h1 q (by simp [hq])
    have hsr : 0 ≤ sum_tokens rest := sum_tokens_nonneg rest hrest
    have hsum : n + sum_tokens rest = 0 := by
      simpa [sum_tokens_cons] using h0
    have hn0 : n = 0 := by omega
    have hr0 : sum_tokens rest = 0 := by omega
    subst hn0
    calc zero_tokens ((sid, (0 : Int)) :: rest)
        = (sid, (0 : Int)) :: zero_tokens rest := rfl
      _ = (sid, (0 : Int)) :: rest := by rw [ih hrest hr0]

theorem spend_tokens_sum (l : List (String × Int)) (h1 : ∀ p ∈ l, 0 ≤ p.2)
    (h2 : 0 < sum_tokens l) :
    spend_tokens (sum_tokens l) l = (true, zero_tokens l) := by
  induction l with
  | nil => simp [sum_tokens] at h2
  | cons p rest ih =>
    obtain ⟨sid, n⟩ := p
    have hn : 0 ≤ n := h1 (sid, n) (by simp)
    have hrest : ∀ q ∈ rest, 0 ≤ q.2 := fun q hq => h1 q (by simp [hq])
    have hsr : 0 ≤ sum_tokens rest := sum_tokens_nonneg rest hrest
    rw [sum_tokens_cons]
    by_cases hn0 : n = 0
    · subst hn0
      have h2r : 0 < sum_tokens rest := by
        simpa [sum_tokens_cons] using h2
      simp [spend_tokens, ih hrest h2r, zero_tokens]
    · have hmin : min (n + sum_tokens rest) n = n := by omega
      by_cases hr0 : sum_tokens rest = 0
      · have hz : zero_tokens rest = rest := zero_tokens_of_sum_eq_zero rest hrest hr0
        have hz2 : List.map (fun p => (p.1, (0 : Int))) rest = rest := by
          simpa [zero_tokens] using hz
        simp [spend_tokens, hn0, hr0, zero_tokens, hz2]
      · have h2r : 0 < sum_tokens rest := by omega
        have hrec := ih hrest h2r
        simp [spend_tokens, hn0, hmin, hr0, hrec, zero_tokens]

theorem spend_tokens_over (l : List (String × Int)) (h1 : ∀ p ∈ l, 0 ≤ p.2) :
    ∀ t : Int, sum_tokens l < t → spend_tokens t l = (false, zero_tokens l) := by
  induction l with
  | nil => intro t ht; simp [spend_tokens, zero_tokens]
  | cons p rest ih =>
    obtain ⟨sid, n⟩ := p
    intro t ht
    have hn : 0 ≤ n := h1 (sid, n) (by simp)
    have hrest : ∀ q ∈ rest, 0 ≤ q.2 := fun q hq => h1 q (by simp [hq])
    have hsr : 0 ≤ sum_tokens rest := sum_tokens_nonneg rest hrest
    have hsum : sum_tokens ((sid, n) :: rest) = n + sum_tokens rest := sum_tokens_cons _ _
    rw [hsum] at ht
    by_cases hn0 : n = 0
    · subst hn0
      have htr : sum_tokens rest < t := by omega
      simp [spend_tokens, ih hrest t htr, zero_tokens]
    · have hmin : min t n = n := by omega
      have hne : t - n ≠ 0 := by omega
      have htr : sum_tokens rest < t - n := by omega
      simp [spend_tokens, hn0, hmin, hne, ih hrest (t - n) htr, zero_tokens]

theorem apply_debts_spec (ds : List Int) (u : UserState) :
    apply_debts u ds = { points := u.points, debts := u.debts ++ ds } := by
  induction ds generalizing u with
  | nil => simp [apply_debts]
  | cons d ds ih => simp [apply_debts, create_debt, ih]

theorem erase_append_singleton_perm (xs : List Int) (d : Int) :
    ((xs ++ [d]).erase d).Perm xs := by
  by_cases hd : d ∈ xs
  · rw [List.erase_append_left _ hd]
    refine List.Perm.trans List.perm_append_comm ?_
    exact (List.perm_cons_erase hd).symm
  · rw [List.erase_append_right _ hd]
    simp

theorem firstUnset_isSome (keys : List String) :
    ∀ ws : List (Option Nat), ws.length ≤ keys.length →
      (∃ w ∈ ws, w = none) → ∃ k, firstUnset keys ws = some k := by
  induction keys with
  | nil =>
    intro ws hlen hex
    obtain ⟨w, hw, _⟩ := hex
    rw [List.length_eq_zero.mp (Nat.le_zero.mp hlen)] at hw
    simp at hw
  | cons k ks ih =>
    intro ws hlen hex
    match ws with
    | [] => obtain ⟨w, hw, _⟩ := hex; simp at hw
    | none :: ws2 => exact ⟨k, rfl⟩
    | some e :: ws2 =>
      obtain ⟨w, hw, hwn⟩ := hex
      rcases List.mem_cons.mp hw with h | h
      · rw [h] at hwn; cases hwn
      · exact ih ws2 (by simpa using hlen) ⟨w, h, hwn⟩

theorem add_warning_of_firstUnset (e : Nat) (keys : List String) :
    ∀ (ws : List (Option Nat)) (store : List (String × Nat)) (k : String),
      firstUnset keys ws = some k →
      add_warning e keys ws store = (true, alSet store k e) := by
  induction keys with
  | nil => intro ws store k hk; simp [firstUnset] at hk
  | cons k0 ks ih =>
    intro ws store k hk
    match ws with
    | [] => simp [firstUnset] at hk
    | none :: ws2 =>
      simp [firstUnset] at hk
      rw [← hk]
      rfl
    | some e2 :: ws2 =>
      simp only [firstUnset] at hk
      exact ih ws2 store k hk

theorem get_warning_keys_length (u : String) (n : Nat) (pfx : String) :
    (get_warning_keys u n pfx).length = n := by
  simp [get_warning_keys]

theorem get_warnings_length (store : List (String × Nat)) (keys : List String) :
    (get_warnings store keys).length = keys.length := by
  simp [get_warnings]

theorem exists_none_of_chances_lt (ws : List (Option Nat)) (n : Nat)
    (hlen : ws.length = n) (hlt : get_chances_used ws < n) :
    ∃ w ∈ ws, w = none := by
  unfold get_chances_used at hlt
  have hcount : 0 < ws.countP (fun w => w.isNone) := by omega
  obtain ⟨w, hw, hwp⟩ := List.countP_pos_iff.mp hcount
  exact ⟨w, hw, Option.isNone_iff_eq_none.mp (by simpa using hwp)⟩

/-- C1 counterexample: with an initial balance of 0 and an amount of 5,
a non-`FailedCommand` failure inside `spend_currency_context` is NOT
re-raised (the context exits with no propagated exception), and the
balance after the context is 5, not the 0 it held before entering. -/
theorem C1_counterexample :
    (spend_currency_context 5 0 ActionResult.otherError ⟨0, []⟩).2 = none ∧
    ((spend_currency_context 5 0 ActionResult.otherError ⟨0, []⟩).1).points ≠ 0 := by
  decide

/-- C1 (amended): when the action wrapped by `spend_currency_context(p, t)`
fails (by `FailedCommand` or any other exception), p points are credited
back but the exception is swallowed, not re-raised: the context exits
normally.  The balance after the context equals the balance before
entering it when p was at most the initial balance; when p exceeded the
initial balance (so the deduction never happened), the refund still
credits p and the balance ends at initial + p. -/
theorem C1_spend_currency_context (p t : Int) (u : UserState)
    (outcome : ActionResult) (hfail : outcome ≠ ActionResult.ok) :
    (spend_currency_context p t outcome u).2 = none ∧
    (p ≤ u.points → ((spend_currency_context p t outcome u).1).points = u.points) ∧
    (u.points < p → ((spend_currency_context p t outcome u).1).points = u.points + p) := by
  cases outcome with
  | ok => exact absurd rfl hfail
  | failedCommand =>
    refine ⟨rfl, fun h => ?_, fun h => ?_⟩
    · simp [spend_currency_context, spend_points, if_pos h]
    · simp [spend_currency_context, spend_points, if_neg (not_le.mpr h)]
  | otherError =>
    refine ⟨rfl, fun h => ?_, fun h => ?_⟩
    · simp [spend_currency_context, spend_points, if_pos h]
    · simp [spend_currency_context, spend_points, if_neg (not_le.mpr h)]

/-- C1 witness: the amended theorem applied at balance 10, amount 5, a
non-`FailedCommand` failure. -/
theorem C1_witness :
    (spend_currency_context 5 0 ActionResult.otherError ⟨10, []⟩).2 = none ∧
    ((spend_currency_context 5 0 ActionResult.otherError ⟨10, []⟩).1).points = 10 := by
  have h := C1_spend_currency_context 5 0 ⟨10, []⟩ ActionResult.otherError (by decide)
  exact ⟨h.1, h.2.1 (by decide)⟩

/-- C2: `spend_points(n)` succeeds and leaves `old_balance - n` exactly
when `n ≤ old_balance`; when `n > old_balance` it returns false and
leaves the state unchanged. -/
theorem C2_spend_points (n : Int) (u : UserState) :
    (n ≤ u.points → spend_points n u = (true, { u with points := u.points - n })) ∧
    (u.points < n → spend_points n u = (false, u)) := by
  refine ⟨fun h => ?_, fun h => ?_⟩
  · simp [spend_points, if_pos h]
  · simp [spend_points, if_neg (not_le.mpr h)]

/-- C2 witness: the theorem applied at balance 10 with amounts 3 and 11. -/
theorem C2_witness :
    spend_points 3 ⟨10, []⟩ = (true, ⟨7, []⟩) ∧
    spend_points 11 ⟨10, []⟩ = (false, ⟨10, []⟩) :=
  ⟨(C2_spend_points 3 ⟨10, []⟩).1 (by decide), (C2_spend_points 11 ⟨10, []⟩).2 (by decide)⟩

/-- C6: after any sequence of `create_debt` calls the points are
untouched, the debt list is the original list extended by the created
debts, and `points_available` equals points minus the debt sum;
`can_afford(n)` holds iff `points_available ≥ n`; `create_debt(d)`
followed by `pay_debt(d)` reduces the balance by d and leaves the debt
list a permutation of the original (one matching entry removed); and
removing an absent debt only logs the error branch, leaving the state
unchanged, with nothing raised. -/
theorem C6_debts (u : UserState) (ds : List Int) (d n : Int) :
    (apply_debts u ds).points = u.points ∧
    (apply_debts u ds).debts = u.debts ++ ds ∧
    points_available (apply_debts u ds) = u.points - (u.debts ++ ds).sum ∧
    (can_afford n u = true ↔ points_available u ≥ n) ∧
    ((pay_debt d (create_debt d u)).1).points = u.points - d ∧
    ((pay_debt d (create_debt d u)).1).debts.Perm u.debts ∧
    ((pay_debt d (create_debt d u)).2) = false ∧
    (d ∉ u.debts → remove_debt d u = (u, true)) := by
  have happ := apply_debts_spec ds u
  have hmem : d ∈ u.debts ++ [d] := by simp
  refine ⟨by rw [happ], by rw [happ], ?_, ?_, ?_, ?_, ?_, fun h => ?_⟩
  · rw [happ]; simp [points_available, points_in_debt]
  · simp [can_afford]
  · simp [pay_debt, remove_debt, create_debt, hmem]
  · simp only [pay_debt, remove_debt, create_debt, hmem, if_pos]
    simpa using erase_append_singleton_perm u.debts d
  · simp [pay_debt, remove_debt, create_debt, hmem]
  · simp [remove_debt, h]

/-- C6 witness: the theorem applied at balance 100, debts created
`[5, 7]`, round-trip debt 3, affordability threshold 88. -/
theorem C6_witness :
    (apply_debts ⟨100, []⟩ [5, 7]).points = 100 ∧
    (apply_debts ⟨100, []⟩ [5, 7]).debts = [5, 7] ∧
    points_available (apply_debts ⟨100, []⟩ [5, 7]) = 88 ∧
    (can_afford 88 ⟨100, []⟩ = true ↔ points_available ⟨100, []⟩ ≥ 88) ∧
    ((pay_debt 3 (create_debt 3 ⟨100, []⟩)).1).points = 97 ∧
    ((pay_debt 3 (create_debt 3 ⟨100, []⟩)).1).debts.Perm [] ∧
    remove_debt 3 ⟨100, []⟩ = (⟨100, []⟩, true) := by
  have h := C6_debts ⟨100, []⟩ [5, 7] 3 88
  exact ⟨h.1, h.2.1, h.2.2.1, h.2.2.2.1, h.2.2.2.2.1, h.2.2.2.2.2.1,
    h.2.2.2.2.2.2.2 (by decide)⟩

/-- C3 counterexample: for the ledger `{a: 2, b: -1}` whose session
balances sum to 1, `spend_tokens 1` does not both return true and leave
every session balance at 0 — it returns true but leaves `a` at 1 and `b`
at -1 (a zero-sum ledger such as `[]` likewise breaks the claim, there by
returning false). -/
theorem C3_counterexample :
    sum_tokens [("a", 2), ("b", -1)] = 1 ∧
    ¬ ((spend_tokens (sum_tokens [("a", 2), ("b", -1)]) [("a", 2), ("b", -1)]).1 = true ∧
       ∀ p ∈ (spend_tokens (sum_tokens [("a", 2), ("b", -1)]) [("a", 2), ("b", -1)]).2,
         p.2 = 0) := by
  decide

/-- C3 (amended): for every token ledger whose session balances are all
nonnegative and sum to a positive total, `spend_tokens` called with
exactly that sum returns true and leaves every session balance at 0, and
called with one more than that sum returns false, having drained every
entry to 0 with the partial decrements written back and not rolled
back. -/
theorem C3_spend_tokens (l : List (String × Int)) (h1 : ∀ p ∈ l, 0 ≤ p.2)
    (h2 : 0 < sum_tokens l) :
    spend_tokens (sum_tokens l) l = (true, zero_tokens l) ∧
    spend_tokens (sum_tokens l + 1) l = (false, zero_tokens l) :=
  ⟨spend_tokens_sum l h1 h2, spend_tokens_over l h1 _ (by omega)⟩

/-- C3 witness: the amended theorem applied to the ledger
`{s1: 3, s2: 2}`. -/
theorem C3_witness :
    spend_tokens (sum_tokens [("s1", 3), ("s2", 2)]) [("s1", 3), ("s2", 2)] =
      (true, zero_tokens [("s1", 3), ("s2", 2)]) ∧
    spend_tokens (sum_tokens [("s1", 3), ("s2", 2)] + 1) [("s1", 3), ("s2", 2)] =
      (false, zero_tokens [("s1", 3), ("s2", 2)]) :=
  C3_spend_tokens [("s1", 3), ("s2", 2)] (by decide) (by decide)

/-- C4: with an active session whose id is absent from the ledger, the
first non-forced `award_tokens` stores the amount, fires the
notification event and returns true; a second non-forced call with the
same session id returns false, fires no event, and leaves the balance at
the first call's amount; a forced second call overwrites the balance to
the new amount; and any call with no current session/broadcast returns
false without writing anything or firing any event. -/
theorem C4_award_tokens (h : List (String × Int)) (sid : String) (a b : Int)
    (habsent : alGet h sid = none) :
    award_tokens a false (some sid) h = (true, alSet h sid a, [a]) ∧
    alGet (alSet h sid a) sid = some a ∧
    award_tokens b false (some sid) (alSet h sid a) = (false, alSet h sid a, []) ∧
    award_tokens b true (some sid) (alSet h sid a) =
      (true, alSet (alSet h sid a) sid b, []) ∧
    alGet (alSet (alSet h sid a) sid b) sid = some b ∧
    (∀ f : Bool, award_tokens a f none h = (false, h, [])) := by
  refine ⟨?_, alGet_alSet_self h sid a, ?_, rfl, alGet_alSet_self _ sid b, fun f => rfl⟩
  · simp [award_tokens, hsetnx, habsent]
  · simp [award_tokens, hsetnx, alGet_alSet_self h sid a]

/-- C4 witness: the theorem applied to an empty ledger, session "s1",
amounts 7 then 9. -/
theorem C4_witness :
    award_tokens 7 false (some "s1") [] = (true, alSet [] "s1" 7, [7]) ∧
    alGet (alSet ([] : List (String × Int)) "s1" 7) "s1" = some 7 ∧
    award_tokens 9 false (some "s1") (alSet [] "s1" 7) = (false, alSet [] "s1" 7, []) ∧
    award_tokens 9 true (some "s1") (alSet [] "s1" 7) =
      (true, alSet (alSet [] "s1" 7) "s1" 9, []) ∧
    alGet (alSet (alSet ([] : List (String × Int)) "s1" 7) "s1" 9) "s1" = some 9 ∧
    (∀ f : Bool, award_tokens 7 f none [] = (false, [], [])) :=
  C4_award_tokens [] "s1" 7 9 rfl

/-- C8: when the `UserSQLCache` holds a subscriber snapshot for the
username equal to the value being written, the `subscriber` setter is a
complete no-op: the accessor's loaded flag, the in-memory record, the
cache and the relational store are all exactly as before. -/
theorem C8_subscriber_set (s : SqlAccessorState) (v : Bool)
    (hcache : cache_get_subscriber s = some v) :
    subscriber_set v s = s := by
  unfold subscriber_set
  rw [hcache]
  simp

/-- C8 witness: the theorem applied to an unloaded accessor whose cache
already says `subscriber = true`. -/
theorem C8_witness :
    subscriber_set true
      { username := "u", model_loaded := false, user_model := none,
        cache := [("u", ⟨some 1, 100, true⟩)], db := [] } =
      { username := "u", model_loaded := false, user_model := none,
        cache := [("u", ⟨some 1, 100, true⟩)], db := [] } :=
  C8_subscriber_set
    { username := "u", model_loaded := false, user_model := none,
      cache := [("u", ⟨some 1, 100, true⟩)], db := [] } true (by decide)

/-- C9: a stored key-value boolean decodes through `fix_bool` to true
exactly when the hash field is present, whatever its content, and to
false when absent; hence writing `banned := true` and re-loading from
the store reads true, and writing `banned := false` and re-loading reads
false, from any prior store contents. -/
theorem C9_banned_round_trip (username : String) (h : List (String × String))
    (value : String) :
    fix_bool (some value) = true ∧
    fix_bool none = false ∧
    banned_load username (banned_set username true h) = true ∧
    banned_load username (banned_set username false h) = false := by
  refine ⟨rfl, rfl, ?_, ?_⟩
  · simp [banned_load, banned_set, fix_bool, alGet_alSet_self]
  · simp [banned_load, banned_set, fix_bool, alGet_alDel_self]

/-- C10: the `username_raw` setter issues an upsert when the value
differs from the stored username attribute and a deletion when they are
equal; `UserCombined.__init__` assigns the raw name through that setter
with the very username it just stored, so every construction issues
exactly the hash-field deletion write — before any load has happened
(both loaded flags are still in their initial state). -/
theorem C10_usercombined_init (username value : String) (um : Option UserRec) :
    (username_raw_set username value).2 =
      (if value ≠ username then [KVEffect.hsetRaw username value]
       else [KVEffect.hdelRaw username]) ∧
    (usercombined_init username um).2 = [KVEffect.hdelRaw username] ∧
    ((usercombined_init username um).1).redis_loaded = false ∧
    ((usercombined_init username um).1).model_loaded = um.isSome := by
  refine ⟨rfl, ?_, rfl, rfl⟩
  simp [usercombined_init, username_raw_set]

theorem timeout_warn_branch (u : String) (L : Nat) (wm : WarningSettings)
    (store : List (String × Nat))
    (hlt : get_chances_used (get_warnings store
      (get_warning_keys u wm.total_chances wm.redis_pfx)) < wm.total_chances) :
    timeout u L (some wm) true store =
      ((wm.base_timeout * (get_chances_used (get_warnings store
          (get_warning_keys u wm.total_chances wm.redis_pfx)) + 1),
        "timed out for " ++ toString (wm.base_timeout * (get_chances_used
          (get_warnings store (get_warning_keys u wm.total_chances wm.redis_pfx)) + 1))
          ++ " seconds (warning)"),
       (add_warning wm.length (get_warning_keys u wm.total_chances wm.redis_pfx)
         (get_warnings store (get_warning_keys u wm.total_chances wm.redis_pfx))
         store).2) := by
  simp only [timeout]
  rw [if_pos hlt]

theorem timeout_full_branch (u : String) (L : Nat) (wm : WarningSettings)
    (store : List (String × Nat))
    (hge : wm.total_chances ≤ get_chances_used (get_warnings store
      (get_warning_keys u wm.total_chances wm.redis_pfx))) :
    timeout u L (some wm) true store =
      ((L, "timed out for " ++ toString L ++ " seconds"), store) := by
  simp only [timeout]
  rw [if_neg (not_lt.mpr hge)]

/-- C5: with warnings enabled and a policy supplied, whenever the number
of warning keys already set is strictly less than the policy's
`total_chances`, `timeout` returns `base_timeout * (chances_used + 1)`
with the warning-tier punishment label and sets the first still-unset
warning key with the policy's configured expiry; whenever all chances
are used it returns the requested length with the plain label, leaving
the key store unchanged.  In particular with `total_chances = 2` and
`base_timeout = 10`, successive calls return lengths 10, 20, then the
original requested length. -/
theorem C5_timeout (u : String) (L : Nat) (wm : WarningSettings)
    (store : List (String × Nat)) :
    (get_chances_used (get_warnings store
        (get_warning_keys u wm.total_chances wm.redis_pfx)) < wm.total_chances →
      ∃ k, firstUnset (get_warning_keys u wm.total_chances wm.redis_pfx)
             (get_warnings store (get_warning_keys u wm.total_chances wm.redis_pfx))
             = some k ∧
        timeout u L (some wm) true store =
          ((wm.base_timeout * (get_chances_used (get_warnings store
              (get_warning_keys u wm.total_chances wm.redis_pfx)) + 1),
            "timed out for " ++ toString (wm.base_timeout * (get_chances_used
              (get_warnings store (get_warning_keys u wm.total_chances wm.redis_pfx))
              + 1)) ++ " seconds (warning)"),
           alSet store k wm.length)) ∧
    (wm.total_chances ≤ get_chances_used (get_warnings store
        (get_warning_keys u wm.total_chances wm.redis_pfx)) →
      timeout u L (some wm) true store =
        ((L, "timed out for " ++ toString L ++ " seconds"), store)) ∧
    ((timeout "alice" L (some ⟨2, 10, 60, "wm"⟩) true []).1 =
       (10, "timed out for 10 seconds (warning)") ∧
     (timeout "alice" L (some ⟨2, 10, 60, "wm"⟩) true
        (timeout "alice" L (some ⟨2, 10, 60, "wm"⟩) true []).2).1 =
       (20, "timed out for 20 seconds (warning)") ∧
     (timeout "alice" L (some ⟨2, 10, 60, "wm"⟩) true
        (timeout "alice" L (some ⟨2, 10, 60, "wm"⟩) true
          (timeout "alice" L (some ⟨2, 10, 60, "wm"⟩) true []).2).2).1 =
       (L, "timed out for " ++ toString L ++ " seconds")) := by
  have hst1 : (timeout "alice" L (some ⟨2, 10, 60, "wm"⟩) true []).2 =
      [("wm_alice_warning_0", 60)] := by
    rw [timeout_warn_branch "alice" L ⟨2, 10, 60, "wm"⟩ [] (by decide)]
    decide
  have hst2 : (timeout "alice" L (some ⟨2, 10, 60, "wm"⟩) true
      [("wm_alice_warning_0", 60)]).2 =
      [("wm_alice_warning_0", 60), ("wm_alice_warning_1", 60)] := by
    rw [timeout_warn_branch "alice" L ⟨2, 10, 60, "wm"⟩
      [("wm_alice_warning_0", 60)] (by decide)]
    decide
  refine ⟨fun hlt => ?_, fun hge => timeout_full_branch u L wm store hge, ?_, ?_, ?_⟩
  case refine_2 =>
    rw [timeout_warn_branch "alice" L ⟨2, 10, 60, "wm"⟩ [] (by decide)]
    decide
  case refine_3 =>
    rw [hst1, timeout_warn_branch "alice" L ⟨2, 10, 60, "wm"⟩
      [("wm_alice_warning_0", 60)] (by decide)]
    decide
  case refine_4 =>
    rw [hst1, hst2, timeout_full_branch "alice" L ⟨2, 10, 60, "wm"⟩
      [("wm_alice_warning_0", 60), ("wm_alice_warning_1", 60)] (by decide)]
  have hlen : (get_warnings store
      (get_warning_keys u wm.total_chances wm.redis_pfx)).length = wm.total_chances := by
    rw [get_warnings_length, get_warning_keys_length]
  have hex := exists_none_of_chances_lt _ wm.total_chances hlen hlt
  obtain ⟨k, hk⟩ := firstUnset_isSome (get_warning_keys u wm.total_chances wm.redis_pfx)
    (get_warnings store (get_warning_keys u wm.total_chances wm.redis_pfx))
    (le_of_eq (hlen.trans (get_warning_keys_length u wm.total_chances wm.redis_pfx).symm))
    hex
  refine ⟨k, hk, ?_⟩
  rw [timeout_warn_branch u L wm store hlt,
    add_warning_of_firstUnset wm.length _ _ store k hk]

/-- C5 witness: the theorem applied for user "bob", requested length
500, a 2-chance policy with base 10 and expiry 60 — once against an
empty key store (warning branch) and once with both warning keys already
set (all chances used). -/
theorem C5_witness :
    timeout "bob" 500 (some ⟨2, 10, 60, "wm"⟩) true [] =
      ((10, "timed out for 10 seconds (warning)"), alSet [] "wm_bob_warning_0" 60) ∧
    timeout "bob" 500 (some ⟨2, 10, 60, "wm"⟩) true
        [("wm_bob_warning_0", 60), ("wm_bob_warning_1", 60)] =
      ((500, "timed out for 500 seconds"),
       [("wm_bob_warning_0", 60), ("wm_bob_warning_1", 60)]) := by
  constructor
  · obtain ⟨k, hk, ht⟩ := (C5_timeout "bob" 500 ⟨2, 10, 60, "wm"⟩ []).1 (by decide)
    have h0 : firstUnset (get_warning_keys "bob" 2 "wm")
        (get_warnings [] (get_warning_keys "bob" 2 "wm")) = some "wm_bob_warning_0" := by
      decide
    rw [h0] at hk
    cases hk
    exact ht
  · exact (C5_timeout "bob" 500 ⟨2, 10, 60, "wm"⟩
      [("wm_bob_warning_0", 60), ("wm_bob_warning_1", 60)]).2.1 (by decide)

/-- C7: loading a username absent from the relational store constructs a
fresh record with level 100, points 0, subscriber false and both
chat-time counters 0, and appends it to the pending inserts; and for any
record already in the store, looking up any casing of its username finds
an existing record and adds nothing. -/
theorem C7_select_or_create (db : List UserRec) (v w : String) :
    (filter_by_username db v = none →
      select_or_create db v =
        ({ id := none, username := str_lower v, username_raw := v, level := 100,
           points := 0, subscriber := false, minutes_in_chat_online := 0,
           minutes_in_chat_offline := 0 }, db ++ [User_mk v])) ∧
    (∀ u ∈ db, str_lower u.username = str_lower w →
      ∃ r, filter_by_username db w = some r ∧ select_or_create db w = (r, db)) := by
  constructor
  · intro h
    simp [select_or_create, h, User_mk]
  · intro u hu heq
    have hsome : (filter_by_username db w).isSome := by
      unfold filter_by_username
      rw [List.find?_isSome]
      exact ⟨u, hu, by simp [username_eq, heq]⟩
    obtain ⟨r, hr⟩ := Option.isSome_iff_exists.mp hsome
    exact ⟨r, hr, by simp [select_or_create, hr]⟩

/-- C7 witness: the theorem applied to an empty store with username
"Alice", and to a store holding the record created for "PajLada" looked
up under the casing "pAJLADA". -/
theorem C7_witness :
    select_or_create [] "Alice" =
      ({ id := none, username := "alice", username_raw := "Alice", level := 100,
         points := 0, subscriber := false, minutes_in_chat_online := 0,
         minutes_in_chat_offline := 0 }, [] ++ [User_mk "Alice"]) ∧
    (∃ r, filter_by_username [User_mk "PajLada"] "pAJLADA" = some r ∧
      select_or_create [User_mk "PajLada"] "pAJLADA" = (r, [User_mk "PajLada"])) := by
  constructor
  · exact (C7_select_or_create [] "Alice" "x").1 (by decide)
  · exact (C7_select_or_create [User_mk "PajLada"] "x" "pAJLADA").2
      (User_mk "PajLada") (by simp) (by decide)

end Pajbot
